import Mathlib

/-!
Verification of the debugger bootstrap and hand-off module of rr
(`src/launch_debugger.cc`).

The development shallowly embeds the functions of that translation unit:

* `gdb_rr_macros` — the lazily cached macro-script builder (the process-wide
  `static string s` cache is passed explicitly as a state argument; the
  externally supplied base text `GdbCommandHandler::gdb_macros()` is a
  parameter);
* `DebuggerParams` / `receive_params` — the one-shot parameter-channel read
  loop, with the sequence of `read(2)` results supplied as a list of events;
* `push_default_gdb_options`, `push_gdb_target_remote_cmd`, `needs_target`,
  `to_shell_string`, `debugger_launch_command` and the argument-assembly part
  of `launch_debugger` — the argument negotiator;
* `exec_debugger` — the terminal `execvpe` step, modelled as a result datatype.

Machine strings are Lean `String`s (the C++ code never relies on embedded NUL
bytes in its `std::string`s); byte buffers are `List Nat`.
-/

namespace RRLaunch

/-! ### MacroLibrary

`rr_macro_text` is the fixed extension appended to the externally supplied
base macros, transcribed literal-by-literal from the `stringstream` inserts
in `gdb_rr_macros` (single quotes are written `\x27`).
-/

def rr_macro_text : String :=
  "define restart\n"
  ++ "  run c$arg0\n"
  ++ "end\n"
  ++ "document restart\n"
  ++ "restart at checkpoint N\n"
  ++ "checkpoints are created with the \x27checkpoint\x27 command\n"
  ++ "end\n"
  ++ "define seek-ticks\n"
  ++ "  run t$arg0\n"
  ++ "end\n"
  ++ "document seek-ticks\n"
  ++ "restart at given ticks value\n"
  ++ "end\n"
  ++ "define jump\n"
  ++ "  rr-denied jump\n"
  ++ "end\n"
  ++ "define hook-run\n"
  ++ "  rr-hook-run\n"
  ++ "end\n"
  ++ "define hookpost-continue\n"
  ++ "  rr-set-suppress-run-hook 1\n"
  ++ "end\n"
  ++ "define hookpost-step\n"
  ++ "  rr-set-suppress-run-hook 1\n"
  ++ "end\n"
  ++ "define hookpost-stepi\n"
  ++ "  rr-set-suppress-run-hook 1\n"
  ++ "end\n"
  ++ "define hookpost-next\n"
  ++ "  rr-set-suppress-run-hook 1\n"
  ++ "end\n"
  ++ "define hookpost-nexti\n"
  ++ "  rr-set-suppress-run-hook 1\n"
  ++ "end\n"
  ++ "define hookpost-finish\n"
  ++ "  rr-set-suppress-run-hook 1\n"
  ++ "end\n"
  ++ "define hookpost-reverse-continue\n"
  ++ "  rr-set-suppress-run-hook 1\n"
  ++ "end\n"
  ++ "define hookpost-reverse-step\n"
  ++ "  rr-set-suppress-run-hook 1\n"
  ++ "end\n"
  ++ "define hookpost-reverse-stepi\n"
  ++ "  rr-set-suppress-run-hook 1\n"
  ++ "end\n"
  ++ "define hookpost-reverse-finish\n"
  ++ "  rr-set-suppress-run-hook 1\n"
  ++ "end\n"
  ++ "define hookpost-run\n"
  ++ "  rr-set-suppress-run-hook 0\n"
  ++ "end\n"
  ++ "set unwindonsignal on\n"
  ++ "handle SIGURG stop\n"
  ++ "set prompt (rr) \n"
  ++ "python\n"
  ++ "import re\n"
  ++ "m = re.compile(r"
  ++ "\x27[^0-9]*([0-9]+)\\.([0-9]+)(\\.([0-9]+))?\x27"
  ++ ").match(gdb.VERSION)\n"
  ++ "ver = int(m.group(1))*10000 + int(m.group(2))*100\n"
  ++ "if m.group(4):\n"
  ++ "    ver = ver + int(m.group(4))\n"
  ++ "\n"
  ++ "if ver == 71100:\n"
  ++ "    gdb.write("
  ++ "\x27This version of gdb (7.11.0) has known bugs that break rr. "
  ++ "Install 7.11.1 or later.\\n\x27, gdb.STDERR)\n"
  ++ "\n"
  ++ "if ver < 71101:\n"
  ++ "    gdb.execute(\x27set target-async 0\x27)\n"
  ++ "    gdb.execute(\x27maint set target-async 0\x27)\n"
  ++ "end\n"

/-- The script computed on a cache miss: the base macros supplied by
`GdbCommandHandler::gdb_macros()` (a parameter here, that collaborator is out
of scope) followed by the fixed extension. -/
def gdb_rr_macros_compute (base : String) : String := base ++ rr_macro_text

/-- `gdb_rr_macros()`: the process-wide `static string s` cache is passed in
and returned explicitly.  The C++ code computes the script when `s.empty()`
and returns the cached value otherwise.  Result: (returned script, new cache
state). -/
def gdb_rr_macros (base : String) (cache : String) : String × String :=
  if cache = "" then
    let s := gdb_rr_macros_compute base
    (s, s)
  else
    (cache, cache)

/-- `gdb_init_script()` simply returns `gdb_rr_macros()`. -/
def gdb_init_script (base : String) (cache : String) : String × String :=
  gdb_rr_macros base cache

/-- The text that `launch_debugger` obtains from `gdb_rr_macros()` and hands
to `create_gdb_command_file` to be written into the command file. -/
def command_file_content (base : String) (cache : String) : String :=
  (gdb_rr_macros base cache).1

/-- The `/proc/<pid>/fd/<fd>` path string returned by
`create_gdb_command_file`. -/
def create_gdb_command_file_path (pid fd : Nat) : String :=
  "/proc/" ++ toString pid ++ "/fd/" ++ toString fd

/-! ### ParameterChannel -/

/-- `struct DebuggerParams` from the source:
`char exe_image[PATH_MAX]; char host[16]; short port;`. -/
structure DebuggerParams where
  exe_image : String
  host : String
  port : Nat
deriving Repr, DecidableEq

/-- `sizeof(DebuggerParams)` = PATH_MAX (4096) + 16 + 2 (no padding: 4114 is
already a multiple of `alignof(short)`). -/
def debuggerParamsSize : Nat := 4114

/-- Decoding the fixed-size binary record (x86 little-endian, as written by
the rr peer): both character arrays are read as NUL-terminated C strings, the
final two bytes are the 16-bit port. -/
def decodeDebuggerParams (bytes : List Nat) : DebuggerParams :=
  { exe_image :=
      String.mk (((bytes.take 4096).takeWhile (fun b => b % 256 ≠ 0)).map
        (fun b => Char.ofNat (b % 256)))
  , host :=
      String.mk ((((bytes.drop 4096).take 16).takeWhile (fun b => b % 256 ≠ 0)).map
        (fun b => Char.ofNat (b % 256)))
  , port := ((bytes.drop 4112).headD 0) % 256 + 256 * (((bytes.drop 4113).headD 0) % 256) }

/-- One result of the blocking `read(2)` on the parameter pipe. -/
inductive ReadResult
  | closed
  | readError (errno : Nat)
  | bytesRead (bytes : List Nat)
deriving Repr, DecidableEq

/-- Outcome of the parameter-channel read in `launch_debugger`. -/
inductive ReceiveOutcome
  | noSession
  | fatal
  | received (p : DebuggerParams)
deriving Repr, DecidableEq

/-- `errno` value for an interrupted system call. -/
def EINTR : Nat := 4

/-- The read loop at the top of `launch_debugger`, driven by the supplied
sequence of read results.  `nread == 0` returns cleanly (pipe closed, no
session); `nread == -1 && errno == EINTR` retries; any other result breaks
out of the loop and must have `nread == sizeof(params)`.

Modelled from the spec: `DEBUG_ASSERT` lives in `log.h`, which is not part of
the sources under verification; per the spec a mismatched read size "is a
fatal protocol violation", so a violated assertion is `fatal`.

`none` means the supplied event list ran out while the loop was still
blocked (impossible for a real blocking read). -/
def receive_params : List ReadResult → Option ReceiveOutcome
  | [] => none
  | ReadResult.closed :: _ => some ReceiveOutcome.noSession
  | ReadResult.readError e :: rest =>
    if e = EINTR then receive_params rest else some ReceiveOutcome.fatal
  | ReadResult.bytesRead bytes :: _ =>
    if bytes.length = debuggerParamsSize then
      some (ReceiveOutcome.received (decodeDebuggerParams bytes))
    else
      some ReceiveOutcome.fatal

/-! ### ArgumentNegotiator -/

/-- `push_default_gdb_options`: `-l 10000` (disable the remote-reply timeout)
and, unless files are being served, `-ex "set sysroot /"`. -/
def push_default_gdb_options (vec : List String) (serve_files : Bool) : List String :=
  let vec := vec ++ ["-l", "10000"]
  if !serve_files then vec ++ ["-ex", "set sysroot /"] else vec

/-- The `target extended-remote HOST:PORT` directive text built by
`push_gdb_target_remote_cmd`. -/
def targetRemoteCmd (host : String) (port : Nat) : String :=
  "target extended-remote " ++ host ++ ":" ++ toString port

/-- `push_gdb_target_remote_cmd`: `-ex` followed by the target directive. -/
def push_gdb_target_remote_cmd (vec : List String) (host : String) (port : Nat) :
    List String :=
  vec ++ ["-ex", targetRemoteCmd host port]

/-- `to_shell_string`: each argument wrapped in single quotes and followed by
a space, accumulated left to right (`ss << "'" << a << "' "`). -/
def to_shell_string (args : List String) : String :=
  args.foldl (fun acc a => acc ++ "\x27" ++ a ++ "\x27 ") ""

/-- `debugger_launch_command` (the advisory form): debugger name, default
options, target directive, image path; also computes the new value of the
process-wide `saved_debugger_launch_command` (second component). -/
def debugger_launch_command (host : String) (port : Nat) (serve_files : Bool)
    (debugger_name : String) (exe_image : String) : List String × String :=
  let cmd := [debugger_name]
  let cmd := push_default_gdb_options cmd serve_files
  let cmd := push_gdb_target_remote_cmd cmd host port
  let cmd := cmd ++ [exe_image]
  (cmd, to_shell_string cmd)

/-- `!strncmp(a, b, n)` for NUL-free strings, with `n = a.length`: true
exactly when every character of `a` matches the corresponding character of
`b` — that is, `a` is a (possibly improper) prefix of `b`. -/
def strncmpEqZero : List Char → List Char → Bool
  | [], _ => true
  | _ :: _, [] => false
  | a :: as, b :: bs => a == b && strncmpEqZero as bs

/-- `needs_target`: `!strncmp(option.c_str(), "continue", option.size())`.
Because the comparison is limited to the option's own length, it accepts any
prefix of `"continue"`, not only the exact word. -/
def needs_target (option : String) : Bool :=
  strncmpEqZero option.data "continue".data

/-- Whether the next passthrough option exists and satisfies `needs_target`
(`i + 1 < options.size() && needs_target(options[i + 1])`). -/
def nextNeeds : List String → Bool
  | b :: _ => needs_target b
  | [] => false

/-- The option-copying loop of `launch_debugger`: walks the passthrough
options with the `did_set_remote` flag, inserting `-ex` plus the target
directive in front of the first `-ex` whose successor satisfies
`needs_target`.  Returns the emitted options and the final flag. -/
def pushOptions (host : String) (port : Nat) : Bool → List String → List String × Bool
  | did_set_remote, [] => ([], did_set_remote)
  | did_set_remote, a :: rest =>
    if did_set_remote = false ∧ a = "-ex" ∧ nextNeeds rest = true then
      let r := pushOptions host port true rest
      ("-ex" :: targetRemoteCmd host port :: a :: r.1, r.2)
    else
      let r := pushOptions host port did_set_remote rest
      (a :: r.1, r.2)

/-- The argument sequence assembled by `launch_debugger` (the bootstrap
form): debugger path, default options, `-x` plus the command file, the
passthrough options with the conditional directive insertion, the directive
appended at the end when it was not inserted, and the image path. -/
def launch_debugger_args (debugger_file_path : String) (gdb_command_file : String)
    (options : List String) (serve_files : Bool) (host : String) (port : Nat)
    (exe_image : String) : List String :=
  let args := [debugger_file_path]
  let args := push_default_gdb_options args serve_files
  let args := args ++ ["-x", gdb_command_file]
  let r := pushOptions host port false options
  let args := args ++ r.1
  let args := if r.2 then args else push_gdb_target_remote_cmd args host port
  args ++ [exe_image]

/-! ### ProcessReplacer -/

/-- Result of the terminal `execvpe` step.  `returnedToCaller` exists only to
state that the operation never produces it. -/
inductive ExecResult
  | replaced (path : String) (args : List String) (env : List String)
  | fatalError
  | returnedToCaller
deriving Repr, DecidableEq

/-- The tail of `launch_debugger`: append `GDB_UNDER_RR=1` to the inherited
environment and exec the debugger.  `exec_ok` abstracts whether the
`execvpe` call itself succeeds; on failure `CLEAN_FATAL()` terminates the
process. -/
def exec_debugger (debugger_file_path : String) (args : List String)
    (base_env : List String) (exec_ok : Bool) : ExecResult :=
  let env := base_env ++ ["GDB_UNDER_RR=1"]
  if exec_ok then ExecResult.replaced debugger_file_path args env
  else ExecResult.fatalError

/-! ### Shell tokenizer

A POSIX-style tokenizer for the quoting round-trip property: spaces separate
tokens, single-quoted spans are literal (an empty quoted span still yields a
token), an unterminated quote is an error.
-/

/-- The single-quote character. -/
def squote : Char := Char.ofNat 39

/-- Tokenizer state: between tokens, inside an unquoted word, or inside a
single-quoted span. -/
inductive TokState
  | start
  | word (cur : List Char)
  | quoted (cur : List Char)

/-- One pass over the characters. -/
def shell_tokenize_go : TokState → List Char → Option (List String)
  | TokState.start, [] => some []
  | TokState.start, c :: cs =>
    if c = ' ' then shell_tokenize_go TokState.start cs
    else if c = squote then shell_tokenize_go (TokState.quoted []) cs
    else shell_tokenize_go (TokState.word [c]) cs
  | TokState.word cur, [] => some [String.mk cur]
  | TokState.word cur, c :: cs =>
    if c = ' ' then (shell_tokenize_go TokState.start cs).map (fun ts => String.mk cur :: ts)
    else if c = squote then shell_tokenize_go (TokState.quoted cur) cs
    else shell_tokenize_go (TokState.word (cur ++ [c])) cs
  | TokState.quoted _, [] => none
  | TokState.quoted cur, c :: cs =>
    if c = squote then shell_tokenize_go (TokState.word cur) cs
    else shell_tokenize_go (TokState.quoted (cur ++ [c])) cs

/-- Tokenize a whole string, starting between tokens. -/
def shell_tokenize (s : String) : Option (List String) :=
  shell_tokenize_go TokState.start s.data

/-! ### Adjacent-pair machinery

Several claims are about adjacent pairs of elements in an argument sequence
(`-ex` followed by some directive).  `pairScan` decides whether some adjacent
pair satisfies a predicate, `pairIdx` returns the index of the first one,
`pairAt` tests the pair at a given index.
-/

/-- Some adjacent pair of `l` satisfies `p`. -/
def pairScan (p : String → String → Bool) : List String → Bool
  | x :: y :: rest => p x y || pairScan p (y :: rest)
  | _ => false

/-- Index of the first adjacent pair of `l` satisfying `p`. -/
def pairIdx (p : String → String → Bool) : List String → Option Nat
  | x :: y :: rest => if p x y then some 0 else (pairIdx p (y :: rest)).map (· + 1)
  | _ => none

/-- The adjacent pair of `l` at index `i` exists and satisfies `p`. -/
def pairAt (p : String → String → Bool) (l : List String) (i : Nat) : Bool :=
  match l.get? i, l.get? (i + 1) with
  | some x, some y => p x y
  | _, _ => false

/-- The pair formed across the boundary of `l₁ ++ l₂` satisfies `p`. -/
def pairBoundary (p : String → String → Bool) (l₁ l₂ : List String) : Bool :=
  match l₁.getLast?, l₂.head? with
  | some x, some y => p x y
  | _, _ => false

/-- An option-introducer followed by a token the source's `needs_target`
accepts (a prefix of `"continue"`) — the pair the bootstrap loop scans for. -/
def resumePair (x y : String) : Bool := x == "-ex" && needs_target y

/-- An option-introducer followed by the exact token `"continue"`. -/
def exactContinuePair (x y : String) : Bool := x == "-ex" && y == "continue"

/-- The `-ex`/`set sysroot /` pair. -/
def sysrootPair (x y : String) : Bool := x == "-ex" && y == "set sysroot /"

/-- Statement of C1's conclusion at concrete inputs: the built sequence
contains the target directive `s` exactly once, located immediately before
the first exact `-ex`/`continue` pair. -/
def directive_once_before_first_exact_pair (args : List String) (s : String) : Bool :=
  match pairIdx exactContinuePair args with
  | some i =>
    decide (2 ≤ i) && (args.get? (i - 2) == some "-ex") && (args.get? (i - 1) == some s)
      && decide (args.count s = 1)
  | none => false

/-- Statement of C2's conclusion at concrete inputs: the built sequence
contains the target directive `s` exactly once, appended at the end
immediately before the final image path. -/
def directive_once_at_end_before_image (args : List String) (s image : String) : Bool :=
  decide (args.count s = 1) && (args.drop (args.length - 3) == ["-ex", s, image])

/-- The character sequence `to_shell_string` produces: every argument becomes
a single-quoted span followed by a space. -/
def quoteBlocks : List String → List Char
  | [] => []
  | a :: rest => squote :: (a.data ++ squote :: ' ' :: quoteBlocks rest)

/-! ### Basic facts about the directive strings and the cache -/

theorem mk_data_eq (s : String) : String.mk s.data = s := rfl

theorem targetRemoteCmd_length (host : String) (port : Nat) :
    24 ≤ (targetRemoteCmd host port).length := by
  have h23 : ("target extended-remote " : String).length = 23 := rfl
  have h1 : (":" : String).length = 1 := rfl
  simp only [targetRemoteCmd, String.length_append, h23, h1]
  omega

theorem targetRemoteCmd_ne (host : String) (port : Nat) (r : String)
    (hr : r.length < 24) : targetRemoteCmd host port ≠ r := by
  intro he
  have := targetRemoteCmd_length host port
  rw [he] at this
  omega

theorem needs_target_targetRemoteCmd (host : String) (port : Nat) :
    needs_target (targetRemoteCmd host port) = false := by
  have hd : ("target extended-remote " : String).data
      = 't' :: "arget extended-remote ".data := rfl
  have hc : ("continue" : String).data = 'c' :: "ontinue".data := rfl
  unfold needs_target targetRemoteCmd
  rw [String.data_append, String.data_append, String.data_append, hd, hc]
  rw [List.cons_append, List.cons_append]
  show (('t' == 'c') && _) = false
  rw [show (('t' : Char) == 'c') = false from rfl, Bool.false_and]

theorem rr_macro_text_ne_empty : rr_macro_text ≠ "" := by decide

theorem gdb_rr_macros_compute_ne_empty (base : String) :
    gdb_rr_macros_compute base ≠ "" := by
  intro h
  apply rr_macro_text_ne_empty
  have hd := congrArg String.data h
  rw [gdb_rr_macros_compute, String.data_append] at hd
  have h2 := (List.append_eq_nil.mp hd).2
  calc rr_macro_text = String.mk rr_macro_text.data := rfl
    _ = String.mk [] := by rw [h2]
    _ = "" := rfl

theorem gdb_rr_macros_reachable (base cache : String)
    (h : cache = "" ∨ cache = gdb_rr_macros_compute base) :
    gdb_rr_macros base cache = (gdb_rr_macros_compute base, gdb_rr_macros_compute base) := by
  rcases h with h | h
  · subst h
    rfl
  · subst h
    unfold gdb_rr_macros
    rw [if_neg (gdb_rr_macros_compute_ne_empty base)]

/-! ### Structure of the option-copying loop -/

theorem pushOptions_of_true (host : String) (port : Nat) (l : List String) :
    pushOptions host port true l = (l, true) := by
  induction l with
  | nil => rfl
  | cons a rest ih =>
    unfold pushOptions
    rw [if_neg (by simp)]
    simp [ih]

theorem resumePair_head (a y : String) (rest : List String) :
    resumePair a y = true ↔ (a = "-ex" ∧ nextNeeds (y :: rest) = true) := by
  simp [resumePair, nextNeeds]

theorem pushOptions_of_none (host : String) (port : Nat) (l : List String)
    (h : pairIdx resumePair l = none) :
    pushOptions host port false l = (l, false) := by
  induction l with
  | nil => rfl
  | cons a rest ih =>
    match rest with
    | [] =>
      unfold pushOptions
      rw [if_neg (by simp [nextNeeds])]
      rfl
    | y :: rest₂ =>
      unfold pairIdx at h
      by_cases hp : resumePair a y = true
      · rw [if_pos hp] at h
        exact absurd h (by simp)
      · rw [if_neg hp] at h
        have hrest : pairIdx resumePair (y :: rest₂) = none := by
          rcases ho : pairIdx resumePair (y :: rest₂) with _ | v
          · rfl
          · rw [ho] at h
            exact absurd h (by simp)
        unfold pushOptions
        rw [if_neg (by
          intro hand
          exact hp ((resumePair_head a y rest₂).mpr ⟨hand.2.1, hand.2.2⟩))]
        simp [ih hrest]

theorem pushOptions_of_some (host : String) (port : Nat) (l : List String) (j : Nat)
    (h : pairIdx resumePair l = some j) :
    pushOptions host port false l =
      (l.take j ++ "-ex" :: targetRemoteCmd host port :: l.drop j, true) := by
  induction l generalizing j with
  | nil => exact absurd h (by simp [pairIdx])
  | cons a rest ih =>
    match rest with
    | [] => exact absurd h (by simp [pairIdx])
    | y :: rest₂ =>
      unfold pairIdx at h
      by_cases hp : resumePair a y = true
      · rw [if_pos hp] at h
        have hj : j = 0 := by simpa using h.symm
        subst hj
        unfold pushOptions
        rw [if_pos ⟨rfl, ((resumePair_head a y rest₂).mp hp).1,
          ((resumePair_head a y rest₂).mp hp).2⟩]
        simp [pushOptions_of_true]
      · rw [if_neg hp] at h
        rcases Option.map_eq_some'.mp h with ⟨j₂, hj₂, hjeq⟩
        subst hjeq
        unfold pushOptions
        rw [if_neg (by
          intro hand
          exact hp ((resumePair_head a y rest₂).mpr ⟨hand.2.1, hand.2.2⟩))]
        simp [ih j₂ hj₂]

/-! ### Structure of the assembled argument sequences -/

theorem push_default_gdb_options_eq (dbg : String) (serve : Bool) :
    push_default_gdb_options [dbg] serve =
      dbg :: "-l" :: "10000" :: (if serve then [] else ["-ex", "set sysroot /"]) := by
  cases serve <;> rfl

theorem debugger_launch_command_eq (host : String) (port : Nat) (serve : Bool)
    (dbg image : String) :
    debugger_launch_command host port serve dbg image =
      (dbg :: "-l" :: "10000" ::
        ((if serve then [] else ["-ex", "set sysroot /"]) ++
          ["-ex", targetRemoteCmd host port, image]),
       to_shell_string
         (dbg :: "-l" :: "10000" ::
           ((if serve then [] else ["-ex", "set sysroot /"]) ++
             ["-ex", targetRemoteCmd host port, image]))) := by
  cases serve <;>
    simp [debugger_launch_command, push_default_gdb_options, push_gdb_target_remote_cmd]

theorem launch_debugger_args_of_none (dbg cf : String) (options : List String)
    (serve : Bool) (host : String) (port : Nat) (img : String)
    (h : pairIdx resumePair options = none) :
    launch_debugger_args dbg cf options serve host port img =
      dbg :: "-l" :: "10000" ::
        ((if serve then [] else ["-ex", "set sysroot /"]) ++
          "-x" :: cf :: (options ++ ["-ex", targetRemoteCmd host port, img])) := by
  simp only [launch_debugger_args, pushOptions_of_none host port options h,
    push_default_gdb_options_eq]
  cases serve <;> simp [push_gdb_target_remote_cmd]

theorem launch_debugger_args_of_some (dbg cf : String) (options : List String)
    (serve : Bool) (host : String) (port : Nat) (img : String) (j : Nat)
    (h : pairIdx resumePair options = some j) :
    launch_debugger_args dbg cf options serve host port img =
      dbg :: "-l" :: "10000" ::
        ((if serve then [] else ["-ex", "set sysroot /"]) ++
          "-x" :: cf :: (options.take j ++
            "-ex" :: targetRemoteCmd host port :: (options.drop j ++ [img]))) := by
  simp only [launch_debugger_args, pushOptions_of_some host port options j h,
    push_default_gdb_options_eq]
  cases serve <;> simp

/-! ### Generic adjacent-pair lemmas -/

theorem pairAt_nil (p : String → String → Bool) (i : Nat) :
    pairAt p [] i = false := by
  simp [pairAt]

theorem pairAt_cons_succ (p : String → String → Bool) (x : String) (l : List String)
    (i : Nat) : pairAt p (x :: l) (i + 1) = pairAt p l i := rfl

theorem pairAt_zero (p : String → String → Bool) (x y : String) (l : List String) :
    pairAt p (x :: y :: l) 0 = p x y := rfl

theorem pairAt_of_get?_none (p : String → String → Bool) (l : List String) (i : Nat)
    (h : l.get? (i + 1) = none) : pairAt p l i = false := by
  unfold pairAt
  rw [h]
  cases l.get? i <;> rfl

theorem pairScan_eq_false_iff (p : String → String → Bool) (l : List String) :
    pairScan p l = false ↔ ∀ i, pairAt p l i = false := by
  induction l with
  | nil => simp [pairScan, pairAt_nil]
  | cons x rest ih =>
    match rest with
    | [] =>
      constructor
      · intro _ i
        apply pairAt_of_get?_none
        cases i <;> rfl
      · intro _
        rfl
    | y :: rest₂ =>
      constructor
      · intro h i
        have hxy : p x y = false := by
          unfold pairScan at h
          exact (Bool.or_eq_false_iff.mp h).1
        have hrest : pairScan p (y :: rest₂) = false := by
          unfold pairScan at h
          exact (Bool.or_eq_false_iff.mp h).2
        cases i with
        | zero => exact hxy
        | succ i₂ => rw [pairAt_cons_succ]; exact (ih.mp hrest) i₂
      · intro h
        unfold pairScan
        rw [Bool.or_eq_false_iff]
        refine ⟨h 0, ih.mpr ?_⟩
        intro i
        have := h (i + 1)
        rwa [pairAt_cons_succ] at this

theorem pairScan_append (p : String → String → Bool) (l₁ l₂ : List String) :
    pairScan p (l₁ ++ l₂) =
      (pairScan p l₁ || pairScan p l₂ || pairBoundary p l₁ l₂) := by
  induction l₁ with
  | nil => simp [pairScan, pairBoundary]
  | cons x t ih =>
    match t with
    | [] =>
      match l₂ with
      | [] => simp [pairScan, pairBoundary]
      | y :: r =>
        have h1 : pairScan p ([x] ++ y :: r) = (p x y || pairScan p (y :: r)) := rfl
        have h2 : pairScan p [x] = false := rfl
        have h3 : pairBoundary p [x] (y :: r) = p x y := rfl
        rw [h1, h2, h3]
        cases p x y <;> simp
    | z :: u =>
      have h1 : pairScan p ((x :: z :: u) ++ l₂)
          = (p x z || pairScan p ((z :: u) ++ l₂)) := rfl
      have h2 : pairScan p (x :: z :: u) = (p x z || pairScan p (z :: u)) := rfl
      have hb : pairBoundary p (x :: z :: u) l₂ = pairBoundary p (z :: u) l₂ := by
        unfold pairBoundary
        rw [List.getLast?_cons_cons]
      rw [h1, ih, h2, hb]
      cases p x z <;> simp [Bool.or_assoc]

theorem pairScan_true_of (p : String → String → Bool) (l₁ l₂ : List String)
    (x y : String) (hp : p x y = true) :
    pairScan p (l₁ ++ x :: y :: l₂) = true := by
  rw [pairScan_append]
  have : pairScan p (x :: y :: l₂) = true := by
    unfold pairScan
    rw [hp, Bool.true_or]
  rw [this]
  simp

theorem pairIdx_append (p : String → String → Bool) (l₁ l₂ : List String)
    (h1 : pairScan p l₁ = false) (hb : pairBoundary p l₁ l₂ = false) :
    pairIdx p (l₁ ++ l₂) = (pairIdx p l₂).map (· + l₁.length) := by
  induction l₁ with
  | nil =>
    rw [List.nil_append]
    cases pairIdx p l₂ <;> simp
  | cons x t ih =>
    match t with
    | [] =>
      match l₂ with
      | [] => rfl
      | y :: r =>
        have hxy : p x y = false := hb
        have h4 : pairIdx p ([x] ++ y :: r)
            = (pairIdx p (y :: r)).map (· + 1) := by
          show (if p x y then some 0 else (pairIdx p (y :: r)).map (· + 1)) = _
          rw [if_neg (by rw [hxy]; exact Bool.false_ne_true)]
        rw [h4]
        rfl
    | z :: u =>
      have hxz : p x z = false := by
        unfold pairScan at h1
        exact (Bool.or_eq_false_iff.mp h1).1
      have ht : pairScan p (z :: u) = false := by
        unfold pairScan at h1
        exact (Bool.or_eq_false_iff.mp h1).2
      have hbt : pairBoundary p (z :: u) l₂ = false := by
        have : pairBoundary p (x :: z :: u) l₂ = pairBoundary p (z :: u) l₂ := by
          unfold pairBoundary
          rw [List.getLast?_cons_cons]
        rw [← this]
        exact hb
      have h4 : pairIdx p ((x :: z :: u) ++ l₂)
          = (pairIdx p ((z :: u) ++ l₂)).map (· + 1) := by
        show (if p x z then some 0 else (pairIdx p ((z :: u) ++ l₂)).map (· + 1)) = _
        rw [if_neg (by rw [hxz]; exact Bool.false_ne_true)]
      rw [h4, ih ht hbt]
      cases pairIdx p l₂ <;> simp
      omega

theorem pairAt_take (p : String → String → Bool) (l : List String) (j i : Nat)
    (h : pairAt p l i = false) : pairAt p (l.take j) i = false := by
  by_cases hij : i + 1 < j
  · unfold pairAt
    rw [List.get?_take (by omega), List.get?_take hij]
    unfold pairAt at h
    exact h
  · apply pairAt_of_get?_none
    rw [List.get?_eq_none]
    exact le_trans (le_trans (List.length_take_le j l) (by omega)) (le_refl _)

theorem pairAt_drop (p : String → String → Bool) (l : List String) (j i : Nat) :
    pairAt p (l.drop j) i = pairAt p l (j + i) := by
  unfold pairAt
  rw [List.get?_drop, List.get?_drop, show j + (i + 1) = j + i + 1 from by omega]

theorem pairScan_take (p : String → String → Bool) (l : List String) (j : Nat)
    (h : pairScan p l = false) : pairScan p (l.take j) = false := by
  rw [pairScan_eq_false_iff] at h ⊢
  intro i
  exact pairAt_take p l j i (h i)

theorem pairScan_drop (p : String → String → Bool) (l : List String) (j : Nat)
    (h : pairScan p l = false) : pairScan p (l.drop j) = false := by
  rw [pairScan_eq_false_iff] at h ⊢
  intro i
  rw [pairAt_drop]
  exact h (j + i)

theorem pairBoundary_of_head (p : String → String → Bool) (l₁ l₂ : List String)
    (y : String) (hh : l₂.head? = some y) (hy : ∀ x, p x y = false) :
    pairBoundary p l₁ l₂ = false := by
  unfold pairBoundary
  rw [hh]
  cases l₁.getLast? with
  | none => rfl
  | some x => exact hy x

theorem pairBoundary_of_last (p : String → String → Bool) (l₁ l₂ : List String)
    (x : String) (hl : l₁.getLast? = some x) (hx : ∀ y, p x y = false) :
    pairBoundary p l₁ l₂ = false := by
  unfold pairBoundary
  rw [hl]
  cases l₂.head? with
  | none => rfl
  | some y => exact hx y

/-! ### Counting the target directive -/

theorem count_target_prefix (host : String) (port : Nat) (dbg cf : String)
    (serve : Bool) (mid : List String)
    (hdbg : dbg ≠ targetRemoteCmd host port) (hcf : cf ≠ targetRemoteCmd host port) :
    (dbg :: "-l" :: "10000" ::
        ((if serve then [] else ["-ex", "set sysroot /"]) ++ "-x" :: cf :: mid)).count
      (targetRemoteCmd host port) = mid.count (targetRemoteCmd host port) := by
  have bdbg : (dbg == targetRemoteCmd host port) = false := beq_eq_false_iff_ne.mpr hdbg
  have bcf : (cf == targetRemoteCmd host port) = false := beq_eq_false_iff_ne.mpr hcf
  have bl : (("-l" : String) == targetRemoteCmd host port) = false :=
    beq_eq_false_iff_ne.mpr (Ne.symm (targetRemoteCmd_ne host port "-l" (by decide)))
  have b10 : (("10000" : String) == targetRemoteCmd host port) = false :=
    beq_eq_false_iff_ne.mpr (Ne.symm (targetRemoteCmd_ne host port "10000" (by decide)))
  have bex : (("-ex" : String) == targetRemoteCmd host port) = false :=
    beq_eq_false_iff_ne.mpr (Ne.symm (targetRemoteCmd_ne host port "-ex" (by decide)))
  have bsys : (("set sysroot /" : String) == targetRemoteCmd host port) = false :=
    beq_eq_false_iff_ne.mpr (Ne.symm (targetRemoteCmd_ne host port "set sysroot /" (by decide)))
  have bx : (("-x" : String) == targetRemoteCmd host port) = false :=
    beq_eq_false_iff_ne.mpr (Ne.symm (targetRemoteCmd_ne host port "-x" (by decide)))
  cases serve <;>
    simp [List.count_cons, List.count_append, bdbg, bcf, bl, b10, bex, bsys, bx]

theorem pairIdx_of_scan_false (p : String → String → Bool) (l : List String)
    (h : pairScan p l = false) : pairIdx p l = none := by
  induction l with
  | nil => rfl
  | cons x t ih =>
    match t with
    | [] => rfl
    | y :: r =>
      unfold pairScan at h
      have hxy := (Bool.or_eq_false_iff.mp h).1
      have hrest := (Bool.or_eq_false_iff.mp h).2
      show (if p x y then some 0 else (pairIdx p (y :: r)).map (· + 1)) = none
      rw [if_neg (by rw [hxy]; exact Bool.false_ne_true), ih hrest]
      rfl

/-! ### Claim C1 -/

/-- C1 (counterexample): the passthrough list `["-ex", "c", "-ex", "continue"]`
contains an option-introducer immediately followed by a token exactly equal to
`"continue"` (at index 2), yet the built bootstrap sequence does not place the
target-connection directive immediately before the first such pair — the
source's `needs_target` is a length-limited comparison, so the directive is
inserted before the earlier `"-ex", "c"` pair instead. -/
theorem exact_continue_insertion_refuted :
    pairAt exactContinuePair ["-ex", "c", "-ex", "continue"] 2 = true ∧
    directive_once_before_first_exact_pair
      (launch_debugger_args "gdb" "/proc/1/fd/3" ["-ex", "c", "-ex", "continue"] false
        "127.0.0.1" 9999 "/home/user/prog")
      (targetRemoteCmd "127.0.0.1" 9999) = false := by
  decide

/-- C1 (amended): when the passthrough options contain a pair of an
option-introducer `-ex` immediately followed by a token that the source's
length-limited comparison accepts (any prefix of `"continue"`), and the first
such pair starts at index `j`, the built bootstrap sequence inserts the
target-connection directive immediately before that pair; provided the
directive string does not already occur among the caller-supplied strings, it
occurs exactly once in the built sequence. -/
theorem insertion_before_first_continue_prefix_pair
    (dbg cf : String) (options : List String) (serve : Bool) (host : String)
    (port : Nat) (img : String) (j : Nat)
    (hj : pairIdx resumePair options = some j)
    (hs : targetRemoteCmd host port ∉ options)
    (hdbg : dbg ≠ targetRemoteCmd host port)
    (hcf : cf ≠ targetRemoteCmd host port)
    (himg : img ≠ targetRemoteCmd host port) :
    launch_debugger_args dbg cf options serve host port img =
      dbg :: "-l" :: "10000" ::
        ((if serve then [] else ["-ex", "set sysroot /"]) ++
          "-x" :: cf :: (options.take j ++
            "-ex" :: targetRemoteCmd host port :: (options.drop j ++ [img]))) ∧
    (launch_debugger_args dbg cf options serve host port img).count
      (targetRemoteCmd host port) = 1 := by
  have hstruct := launch_debugger_args_of_some dbg cf options serve host port img j hj
  refine ⟨hstruct, ?_⟩
  rw [hstruct, count_target_prefix host port dbg cf serve _ hdbg hcf]
  have hsplit : (options.take j).count (targetRemoteCmd host port) +
      (options.drop j).count (targetRemoteCmd host port) = 0 := by
    rw [← List.count_append, List.take_append_drop]
    exact List.count_eq_zero.mpr hs
  have bex : (("-ex" : String) == targetRemoteCmd host port) = false :=
    beq_eq_false_iff_ne.mpr (Ne.symm (targetRemoteCmd_ne host port "-ex" (by decide)))
  have bimg : (img == targetRemoteCmd host port) = false := beq_eq_false_iff_ne.mpr himg
  simp [List.count_append, List.count_cons, bex, bimg]
  omega

/-- C1 (witness): the spec's own scenario
`["-ex", "echo hi", "-ex", "continue"]`, whose first accepted pair starts at
index 2. -/
theorem insertion_before_first_continue_prefix_pair_witness :
    launch_debugger_args "gdb" "/proc/1/fd/3" ["-ex", "echo hi", "-ex", "continue"] false
        "127.0.0.1" 9999 "/home/user/prog" =
      ["gdb", "-l", "10000", "-ex", "set sysroot /", "-x", "/proc/1/fd/3",
        "-ex", "echo hi", "-ex", targetRemoteCmd "127.0.0.1" 9999,
        "-ex", "continue", "/home/user/prog"] ∧
    (launch_debugger_args "gdb" "/proc/1/fd/3" ["-ex", "echo hi", "-ex", "continue"] false
        "127.0.0.1" 9999 "/home/user/prog").count (targetRemoteCmd "127.0.0.1" 9999) = 1 :=
  insertion_before_first_continue_prefix_pair "gdb" "/proc/1/fd/3"
    ["-ex", "echo hi", "-ex", "continue"] false "127.0.0.1" 9999 "/home/user/prog" 2
    (by decide) (by decide) (by decide) (by decide) (by decide)

/-! ### Claim C2 -/

/-- C2 (counterexample): the passthrough list `["-ex", "c"]` contains no
option-introducer/`"continue"` pair (no token equals `"continue"`), yet the
built sequence does not append the target-connection directive at the end
immediately before the image path — `"c"` passes the source's length-limited
comparison, so the directive is inserted mid-sequence. -/
theorem no_exact_pair_append_refuted :
    pairScan exactContinuePair ["-ex", "c"] = false ∧
    directive_once_at_end_before_image
      (launch_debugger_args "gdb" "/proc/1/fd/3" ["-ex", "c"] false
        "127.0.0.1" 9999 "/home/user/prog")
      (targetRemoteCmd "127.0.0.1" 9999) "/home/user/prog" = false := by
  decide

/-- C2 (amended): when no adjacent pair of the passthrough options consists of
`-ex` followed by a token accepted by the source's length-limited comparison
(a prefix of `"continue"`), the built bootstrap sequence appends the
target-connection directive once at the end, immediately before the final
image path; provided the directive string does not already occur among the
caller-supplied strings, it occurs exactly once. -/
theorem directive_appended_when_no_continue_prefix_pair
    (dbg cf : String) (options : List String) (serve : Bool) (host : String)
    (port : Nat) (img : String)
    (hno : pairScan resumePair options = false)
    (hs : targetRemoteCmd host port ∉ options)
    (hdbg : dbg ≠ targetRemoteCmd host port)
    (hcf : cf ≠ targetRemoteCmd host port)
    (himg : img ≠ targetRemoteCmd host port) :
    launch_debugger_args dbg cf options serve host port img =
      dbg :: "-l" :: "10000" ::
        ((if serve then [] else ["-ex", "set sysroot /"]) ++
          "-x" :: cf :: (options ++ ["-ex", targetRemoteCmd host port, img])) ∧
    (launch_debugger_args dbg cf options serve host port img).count
      (targetRemoteCmd host port) = 1 ∧
    directive_once_at_end_before_image
      (launch_debugger_args dbg cf options serve host port img)
      (targetRemoteCmd host port) img = true := by
  have hidx := pairIdx_of_scan_false resumePair options hno
  have hstruct := launch_debugger_args_of_none dbg cf options serve host port img hidx
  have bex : (("-ex" : String) == targetRemoteCmd host port) = false :=
    beq_eq_false_iff_ne.mpr (Ne.symm (targetRemoteCmd_ne host port "-ex" (by decide)))
  have bimg : (img == targetRemoteCmd host port) = false := beq_eq_false_iff_ne.mpr himg
  have hopts : options.count (targetRemoteCmd host port) = 0 := List.count_eq_zero.mpr hs
  have hcount : (launch_debugger_args dbg cf options serve host port img).count
      (targetRemoteCmd host port) = 1 := by
    rw [hstruct, count_target_prefix host port dbg cf serve _ hdbg hcf]
    simp [List.count_append, List.count_cons, bex, bimg, hopts]
  have hre : launch_debugger_args dbg cf options serve host port img =
      (dbg :: "-l" :: "10000" ::
        ((if serve then [] else ["-ex", "set sysroot /"]) ++ "-x" :: cf :: options)) ++
        ["-ex", targetRemoteCmd host port, img] := by
    rw [hstruct]
    simp [List.append_assoc]
  refine ⟨hstruct, hcount, ?_⟩
  unfold directive_once_at_end_before_image
  rw [hcount, hre]
  have hlen3 : ((dbg :: "-l" :: "10000" ::
      ((if serve then [] else ["-ex", "set sysroot /"]) ++ "-x" :: cf :: options)) ++
        ["-ex", targetRemoteCmd host port, img]).length - 3 =
      (dbg :: "-l" :: "10000" ::
        ((if serve then [] else ["-ex", "set sysroot /"]) ++ "-x" :: cf :: options)).length := by
    rw [List.length_append,
      show (["-ex", targetRemoteCmd host port, img] : List String).length = 3 from rfl,
      Nat.add_sub_cancel]
  rw [hlen3, List.drop_left]
  simp

/-- C2 (witness): empty passthrough options (the spec's second scenario). -/
theorem directive_appended_when_no_continue_prefix_pair_witness :
    launch_debugger_args "gdb" "/proc/1/fd/3" [] false "127.0.0.1" 9999 "/home/user/prog" =
      ["gdb", "-l", "10000", "-ex", "set sysroot /", "-x", "/proc/1/fd/3",
        "-ex", targetRemoteCmd "127.0.0.1" 9999, "/home/user/prog"] ∧
    (launch_debugger_args "gdb" "/proc/1/fd/3" [] false "127.0.0.1" 9999
        "/home/user/prog").count (targetRemoteCmd "127.0.0.1" 9999) = 1 ∧
    directive_once_at_end_before_image
      (launch_debugger_args "gdb" "/proc/1/fd/3" [] false "127.0.0.1" 9999 "/home/user/prog")
      (targetRemoteCmd "127.0.0.1" 9999) "/home/user/prog" = true :=
  directive_appended_when_no_continue_prefix_pair "gdb" "/proc/1/fd/3" [] false
    "127.0.0.1" 9999 "/home/user/prog"
    (by decide) (by decide) (by decide) (by decide) (by decide)

/-! ### Claim C3 -/

theorem pairScan_append_false (p : String → String → Bool) (l₁ l₂ : List String)
    (h1 : pairScan p l₁ = false) (h2 : pairScan p l₂ = false)
    (hb : pairBoundary p l₁ l₂ = false) : pairScan p (l₁ ++ l₂) = false := by
  rw [pairScan_append, h1, h2, hb]
  rfl

theorem sysrootPair_snd (x y : String) (h : y ≠ "set sysroot /") :
    sysrootPair x y = false := by
  unfold sysrootPair
  rw [beq_eq_false_iff_ne.mpr h, Bool.and_false]

theorem sysrootPair_fst (x y : String) (h : x ≠ "-ex") :
    sysrootPair x y = false := by
  unfold sysrootPair
  rw [beq_eq_false_iff_ne.mpr h, Bool.false_and]

/-- C3 (counterexample): with file-serving enabled, the bootstrap sequence
can still contain the `-ex`/`set sysroot /` pair — the caller-supplied
passthrough options may carry it. -/
theorem sysroot_pair_when_serving_refuted :
    pairScan sysrootPair
      (launch_debugger_args "gdb" "/proc/1/fd/3" ["-ex", "set sysroot /"] true
        "127.0.0.1" 9999 "/home/user/prog") = true := by
  decide

/-- C3 (amended): with file-serving disabled both construction rules always
produce the adjacent `-ex`/`set sysroot /` pair; with file-serving enabled
the defaults contribute no such pair — the advisory sequence never contains
it, and the bootstrap sequence does not contain it unless the caller-supplied
strings introduce it (no adjacent pair of the passthrough options is the
sysroot pair, the image path is not the sysroot directive, and the command
file path is not the option introducer). -/
theorem sysroot_pair_iff_not_serving
    (dbg cf : String) (options : List String) (host : String) (port : Nat) (img : String)
    (hopts : pairScan sysrootPair options = false)
    (himg : img ≠ "set sysroot /")
    (hcf : cf ≠ "-ex") :
    pairScan sysrootPair (debugger_launch_command host port false dbg img).1 = true ∧
    pairScan sysrootPair (launch_debugger_args dbg cf options false host port img) = true ∧
    pairScan sysrootPair (debugger_launch_command host port true dbg img).1 = false ∧
    pairScan sysrootPair (launch_debugger_args dbg cf options true host port img) = false := by
  have hpair : sysrootPair "-ex" "set sysroot /" = true := by decide
  refine ⟨?_, ?_, ?_, ?_⟩
  · rw [debugger_launch_command_eq]
    have hsh : dbg :: "-l" :: "10000" ::
        ((if (false : Bool) then [] else ["-ex", "set sysroot /"]) ++
          ["-ex", targetRemoteCmd host port, img]) =
        [dbg, "-l", "10000"] ++ "-ex" :: "set sysroot /" ::
          ["-ex", targetRemoteCmd host port, img] := by simp
    rw [hsh]
    exact pairScan_true_of _ _ _ _ _ hpair
  · rcases hcase : pairIdx resumePair options with _ | j
    · rw [launch_debugger_args_of_none dbg cf options false host port img hcase]
      have hsh : dbg :: "-l" :: "10000" ::
          ((if (false : Bool) then [] else ["-ex", "set sysroot /"]) ++
            "-x" :: cf :: (options ++ ["-ex", targetRemoteCmd host port, img])) =
          [dbg, "-l", "10000"] ++ "-ex" :: "set sysroot /" ::
            ("-x" :: cf :: (options ++ ["-ex", targetRemoteCmd host port, img])) := by simp
      rw [hsh]
      exact pairScan_true_of _ _ _ _ _ hpair
    · rw [launch_debugger_args_of_some dbg cf options false host port img j hcase]
      have hsh : dbg :: "-l" :: "10000" ::
          ((if (false : Bool) then [] else ["-ex", "set sysroot /"]) ++
            "-x" :: cf :: (options.take j ++
              "-ex" :: targetRemoteCmd host port :: (options.drop j ++ [img]))) =
          [dbg, "-l", "10000"] ++ "-ex" :: "set sysroot /" ::
            ("-x" :: cf :: (options.take j ++
              "-ex" :: targetRemoteCmd host port :: (options.drop j ++ [img]))) := by simp
      rw [hsh]
      exact pairScan_true_of _ _ _ _ _ hpair
  · rw [debugger_launch_command_eq]
    have f1 : sysrootPair dbg "-l" = false := sysrootPair_snd _ _ (by decide)
    have f2 : sysrootPair "-l" "10000" = false := by decide
    have f3 : sysrootPair "10000" "-ex" = false := by decide
    have f4 : sysrootPair "-ex" (targetRemoteCmd host port) = false :=
      sysrootPair_snd _ _ (targetRemoteCmd_ne host port _ (by decide))
    have f5 : sysrootPair (targetRemoteCmd host port) img = false :=
      sysrootPair_fst _ _ (targetRemoteCmd_ne host port _ (by decide))
    simp [pairScan, f1, f2, f3, f4, f5]
  · have hP : pairScan sysrootPair [dbg, "-l", "10000", "-x", cf] = false := by
      have f1 : sysrootPair dbg "-l" = false := sysrootPair_snd _ _ (by decide)
      have f2 : sysrootPair "-l" "10000" = false := by decide
      have f3 : sysrootPair "10000" "-x" = false := by decide
      have f4 : sysrootPair "-x" cf = false := sysrootPair_fst _ _ (by decide)
      simp [pairScan, f1, f2, f3, f4]
    have hPlast : ([dbg, "-l", "10000", "-x", cf] : List String).getLast? = some cf := rfl
    have hcfB : ∀ y, sysrootPair cf y = false := fun y => sysrootPair_fst _ _ hcf
    have hTail : pairScan sysrootPair ["-ex", targetRemoteCmd host port, img] = false := by
      have f4 : sysrootPair "-ex" (targetRemoteCmd host port) = false :=
        sysrootPair_snd _ _ (targetRemoteCmd_ne host port _ (by decide))
      have f5 : sysrootPair (targetRemoteCmd host port) img = false :=
        sysrootPair_fst _ _ (targetRemoteCmd_ne host port _ (by decide))
      simp [pairScan, f4, f5]
    rcases hcase : pairIdx resumePair options with _ | j
    · rw [launch_debugger_args_of_none dbg cf options true host port img hcase]
      have hsh : dbg :: "-l" :: "10000" ::
          ((if (true : Bool) then [] else ["-ex", "set sysroot /"]) ++
            "-x" :: cf :: (options ++ ["-ex", targetRemoteCmd host port, img])) =
          [dbg, "-l", "10000", "-x", cf] ++
            (options ++ ["-ex", targetRemoteCmd host port, img]) := by simp
      rw [hsh]
      apply pairScan_append_false _ _ _ hP
      · apply pairScan_append_false _ _ _ hopts hTail
        exact pairBoundary_of_head _ _ _ "-ex" rfl
          (fun x => sysrootPair_snd _ _ (by decide))
      · apply pairBoundary_of_last _ _ _ cf hPlast hcfB
    · rw [launch_debugger_args_of_some dbg cf options true host port img j hcase]
      have hsh : dbg :: "-l" :: "10000" ::
          ((if (true : Bool) then [] else ["-ex", "set sysroot /"]) ++
            "-x" :: cf :: (options.take j ++
              "-ex" :: targetRemoteCmd host port :: (options.drop j ++ [img]))) =
          [dbg, "-l", "10000", "-x", cf] ++
            (options.take j ++ (["-ex", targetRemoteCmd host port] ++
              (options.drop j ++ [img]))) := by simp
      rw [hsh]
      apply pairScan_append_false _ _ _ hP
      · apply pairScan_append_false _ _ _ (pairScan_take _ _ _ hopts)
        · apply pairScan_append_false
          · have f4 : sysrootPair "-ex" (targetRemoteCmd host port) = false :=
              sysrootPair_snd _ _ (targetRemoteCmd_ne host port _ (by decide))
            simp [pairScan, f4]
          · apply pairScan_append_false _ _ _ (pairScan_drop _ _ _ hopts)
            · simp [pairScan]
            · exact pairBoundary_of_head _ _ _ img rfl
                (fun x => sysrootPair_snd _ _ himg)
          · exact pairBoundary_of_last _ _ _ (targetRemoteCmd host port) (by rfl)
              (fun y => sysrootPair_fst _ _ (targetRemoteCmd_ne host port _ (by decide)))
        · exact pairBoundary_of_head _ _ _ "-ex" rfl
            (fun x => sysrootPair_snd _ _ (by decide))
      · apply pairBoundary_of_last _ _ _ cf hPlast hcfB

/-- C3 (witness): concrete instances of all four parts. -/
theorem sysroot_pair_iff_not_serving_witness :
    pairScan sysrootPair
      (debugger_launch_command "127.0.0.1" 9999 false "gdb" "/home/user/prog").1 = true ∧
    pairScan sysrootPair
      (launch_debugger_args "gdb" "/proc/1/fd/3" ["-ex", "echo hi"] false
        "127.0.0.1" 9999 "/home/user/prog") = true ∧
    pairScan sysrootPair
      (debugger_launch_command "127.0.0.1" 9999 true "gdb" "/home/user/prog").1 = false ∧
    pairScan sysrootPair
      (launch_debugger_args "gdb" "/proc/1/fd/3" ["-ex", "echo hi"] true
        "127.0.0.1" 9999 "/home/user/prog") = false :=
  sysroot_pair_iff_not_serving "gdb" "/proc/1/fd/3" ["-ex", "echo hi"]
    "127.0.0.1" 9999 "/home/user/prog" (by decide) (by decide) (by decide)

/-! ### Claim C4 -/

/-- C4: the parameter-channel read classifies its outcomes — a clean
zero-length read returns the benign no-session sentinel, a read of exactly
`sizeof(DebuggerParams)` bytes yields the populated record, and any other
read size is fatal.  (`DEBUG_ASSERT` is modelled from the spec as fatal; it
lives in `log.h`, outside the sources under verification.) -/
theorem parameter_channel_classification (bytes : List Nat) :
    receive_params [ReadResult.closed] = some ReceiveOutcome.noSession ∧
    (bytes.length = debuggerParamsSize →
      receive_params [ReadResult.bytesRead bytes] =
        some (ReceiveOutcome.received (decodeDebuggerParams bytes))) ∧
    (bytes.length ≠ debuggerParamsSize →
      receive_params [ReadResult.bytesRead bytes] = some ReceiveOutcome.fatal) := by
  refine ⟨rfl, ?_, ?_⟩
  · intro h
    simp [receive_params, h]
  · intro h
    simp [receive_params, h]

/-- C4 (witness): a full-size record is decoded; an undersized record is
fatal. -/
theorem parameter_channel_classification_witness :
    receive_params [ReadResult.bytesRead (List.replicate 4114 0)] =
      some (ReceiveOutcome.received (decodeDebuggerParams (List.replicate 4114 0))) ∧
    receive_params [ReadResult.bytesRead [1, 2, 3]] = some ReceiveOutcome.fatal :=
  ⟨(parameter_channel_classification (List.replicate 4114 0)).2.1
      (by rw [List.length_replicate]; rfl),
   (parameter_channel_classification [1, 2, 3]).2.2 (by decide)⟩

/-! ### Claim C5 -/

/-- C5: calling the macro builder twice yields byte-identical script text
both times, and the second call returns exactly the value cached by the
first. -/
theorem macro_builder_cached (base : String) :
    (gdb_rr_macros base (gdb_rr_macros base "").2).1 = (gdb_rr_macros base "").1 ∧
    (gdb_rr_macros base (gdb_rr_macros base "").2).1 = (gdb_rr_macros base "").2 ∧
    (gdb_rr_macros base (gdb_rr_macros base "").2).2 = (gdb_rr_macros base "").2 := by
  have h1 : gdb_rr_macros base "" =
      (gdb_rr_macros_compute base, gdb_rr_macros_compute base) :=
    gdb_rr_macros_reachable base "" (Or.inl rfl)
  have h2 : gdb_rr_macros base (gdb_rr_macros_compute base) =
      (gdb_rr_macros_compute base, gdb_rr_macros_compute base) :=
    gdb_rr_macros_reachable base _ (Or.inr rfl)
  rw [h1]
  show (gdb_rr_macros base (gdb_rr_macros_compute base)).1 = gdb_rr_macros_compute base ∧
    (gdb_rr_macros base (gdb_rr_macros_compute base)).1 = gdb_rr_macros_compute base ∧
    (gdb_rr_macros base (gdb_rr_macros_compute base)).2 = gdb_rr_macros_compute base
  rw [h2]
  exact ⟨rfl, rfl, rfl⟩

/-! ### Claim C10 -/

/-- C10: at every reachable cache state the public accessor
`gdb_init_script()` returns exactly the text the bootstrap path obtains for
the materialized command file (both are the computed macro script). -/
theorem init_script_matches_command_file (base c₁ c₂ : String)
    (h₁ : c₁ = "" ∨ c₁ = gdb_rr_macros_compute base)
    (h₂ : c₂ = "" ∨ c₂ = gdb_rr_macros_compute base) :
    (gdb_init_script base c₁).1 = command_file_content base c₂ := by
  unfold gdb_init_script command_file_content
  rw [gdb_rr_macros_reachable base c₁ h₁, gdb_rr_macros_reachable base c₂ h₂]

/-- C10 (witness): cold accessor call against a bootstrap that ran on a warm
cache. -/
theorem init_script_matches_command_file_witness :
    (gdb_init_script "" "").1 = command_file_content "" (gdb_rr_macros_compute "") :=
  init_script_matches_command_file "" "" (gdb_rr_macros_compute "")
    (Or.inl rfl) (Or.inr rfl)

/-! ### Claim C8 -/

/-- C8: the process-replacement step appends exactly one `GDB_UNDER_RR=1`
marker to the inherited environment, never returns to the caller, and on
`execvpe` failure terminates fatally. -/
theorem process_replacement_contract (p : String) (args base_env : List String)
    (ok : Bool) :
    exec_debugger p args base_env true =
      ExecResult.replaced p args (base_env ++ ["GDB_UNDER_RR=1"]) ∧
    exec_debugger p args base_env false = ExecResult.fatalError ∧
    exec_debugger p args base_env ok ≠ ExecResult.returnedToCaller ∧
    (base_env ++ ["GDB_UNDER_RR=1"]).count "GDB_UNDER_RR=1" =
      base_env.count "GDB_UNDER_RR=1" + 1 := by
  refine ⟨rfl, rfl, ?_, ?_⟩
  · cases ok <;> simp [exec_debugger]
  · simp [List.count_append, List.count_cons]

/-! ### Claim C9 -/

/-- C9: the advisory construction returns exactly the debugger name, the
default options (`-l 10000` plus the sysroot pair when file-serving is off),
the target directive built from host and port, and the image path, in that
order; the shell-quoted rendering of that sequence is the new
SavedLaunchCommand. -/
theorem advisory_command_form (host : String) (port : Nat) (serve : Bool)
    (dbg img : String) :
    debugger_launch_command host port serve dbg img =
      (dbg :: "-l" :: "10000" ::
        ((if serve then [] else ["-ex", "set sysroot /"]) ++
          ["-ex", targetRemoteCmd host port, img]),
       to_shell_string (dbg :: "-l" :: "10000" ::
        ((if serve then [] else ["-ex", "set sysroot /"]) ++
          ["-ex", targetRemoteCmd host port, img]))) :=
  debugger_launch_command_eq host port serve dbg img

/-! ### Claim C7 -/

theorem resumePair_snd (x y : String) (h : needs_target y = false) :
    resumePair x y = false := by
  unfold resumePair
  rw [h, Bool.and_false]

theorem resumePair_fst (x y : String) (h : x ≠ "-ex") :
    resumePair x y = false := by
  unfold resumePair
  rw [beq_eq_false_iff_ne.mpr h, Bool.false_and]

theorem pairIdx_some_lt (p : String → String → Bool) (l : List String) (j : Nat)
    (h : pairIdx p l = some j) : j + 1 < l.length := by
  induction l generalizing j with
  | nil => exact absurd h (by simp [pairIdx])
  | cons x t ih =>
    match t with
    | [] => exact absurd h (by simp [pairIdx])
    | y :: r =>
      unfold pairIdx at h
      by_cases hp : p x y = true
      · rw [if_pos hp] at h
        have hj : j = 0 := by simpa using h.symm
        subst hj
        simp
      · rw [if_neg hp] at h
        rcases Option.map_eq_some'.mp h with ⟨j₂, hj₂, hjeq⟩
        subst hjeq
        have := ih j₂ hj₂
        simp at this ⊢
        omega

theorem pairIdx_some_pairAt (p : String → String → Bool) (l : List String) (j : Nat)
    (h : pairIdx p l = some j) : pairAt p l j = true := by
  induction l generalizing j with
  | nil => exact absurd h (by simp [pairIdx])
  | cons x t ih =>
    match t with
    | [] => exact absurd h (by simp [pairIdx])
    | y :: r =>
      unfold pairIdx at h
      by_cases hp : p x y = true
      · rw [if_pos hp] at h
        have hj : j = 0 := by simpa using h.symm
        subst hj
        exact hp
      · rw [if_neg hp] at h
        rcases Option.map_eq_some'.mp h with ⟨j₂, hj₂, hjeq⟩
        subst hjeq
        rw [pairAt_cons_succ]
        exact ih j₂ hj₂

theorem pairIdx_min (p : String → String → Bool) (l : List String) (j : Nat)
    (h : pairIdx p l = some j) : ∀ i, i < j → pairAt p l i = false := by
  induction l generalizing j with
  | nil =>
    intro i _
    exact pairAt_nil p i
  | cons x t ih =>
    match t with
    | [] =>
      intro i _
      apply pairAt_of_get?_none
      cases i <;> rfl
    | y :: r =>
      unfold pairIdx at h
      by_cases hp : p x y = true
      · rw [if_pos hp] at h
        have hj : j = 0 := by simpa using h.symm
        subst hj
        intro i hi
        omega
      · rw [if_neg hp] at h
        rcases Option.map_eq_some'.mp h with ⟨j₂, hj₂, hjeq⟩
        subst hjeq
        intro i hi
        cases i with
        | zero =>
          rw [pairAt_zero]
          cases hP : p x y
          · rfl
          · exact absurd hP hp
        | succ i₂ =>
          rw [pairAt_cons_succ]
          exact ih j₂ hj₂ i₂ (by omega)

theorem pairScan_take_of_idx (p : String → String → Bool) (l : List String) (j : Nat)
    (h : pairIdx p l = some j) : pairScan p (l.take j) = false := by
  have hmin := pairIdx_min p l j h
  rw [pairScan_eq_false_iff]
  intro i
  by_cases hij : i + 1 < j
  · unfold pairAt
    rw [List.get?_take (by omega), List.get?_take hij]
    have := hmin i (by omega)
    unfold pairAt at this
    exact this
  · apply pairAt_of_get?_none
    rw [List.get?_eq_none]
    exact le_trans (List.length_take_le j l) (by omega)

theorem pairAt_drop_eq (p : String → String → Bool) (l : List String) (j : Nat)
    (h : pairAt p l j = true) :
    ∃ x y, l.drop j = x :: y :: l.drop (j + 2) ∧ p x y = true := by
  unfold pairAt at h
  rcases hx : l.get? j with _ | x
  · rw [hx] at h
    exact absurd h (by simp)
  · rcases hy : l.get? (j + 1) with _ | y
    · rw [hx, hy] at h
      exact absurd h (by simp)
    · rw [hx, hy] at h
      refine ⟨x, y, ?_, h⟩
      rcases List.get?_eq_some.mp hx with ⟨hjl, hgx⟩
      rcases List.get?_eq_some.mp hy with ⟨hjl₂, hgy⟩
      rw [List.drop_eq_get_cons hjl, List.drop_eq_get_cons hjl₂, hgx, hgy]

/-- C7: whenever the bootstrap loop inserts the target-connection directive
mid-sequence (the passthrough options have a first `-ex`/`needs_target` pair,
at index `j`), the directive occurs exactly once in the built sequence
(provided the caller-supplied strings do not already contain it), it sits at
position `base + j + 1` (where `base` is the number of arguments preceding
the passthrough region), and the first resume-type directive of the whole
sequence — the first `-ex` followed by a `needs_target`-accepted token — is
the pair starting right after it, at `base + j + 2`. -/
theorem directive_precedes_first_resume_directive
    (dbg cf : String) (options : List String) (serve : Bool) (host : String)
    (port : Nat) (img : String) (j : Nat)
    (hj : pairIdx resumePair options = some j)
    (hs : targetRemoteCmd host port ∉ options)
    (hdbg : dbg ≠ targetRemoteCmd host port)
    (hcf : cf ≠ targetRemoteCmd host port)
    (himg : img ≠ targetRemoteCmd host port)
    (hcfex : cf ≠ "-ex") :
    (launch_debugger_args dbg cf options serve host port img).count
      (targetRemoteCmd host port) = 1 ∧
    (launch_debugger_args dbg cf options serve host port img).get?
      ((if serve then 5 else 7) + j + 1) = some (targetRemoteCmd host port) ∧
    pairIdx resumePair (launch_debugger_args dbg cf options serve host port img) =
      some ((if serve then 5 else 7) + j + 2) := by
  have hlt := pairIdx_some_lt resumePair options j hj
  have hstruct := launch_debugger_args_of_some dbg cf options serve host port img j hj
  have hcount : (launch_debugger_args dbg cf options serve host port img).count
      (targetRemoteCmd host port) = 1 := by
    rw [hstruct, count_target_prefix host port dbg cf serve _ hdbg hcf]
    have hsplit : (options.take j).count (targetRemoteCmd host port) +
        (options.drop j).count (targetRemoteCmd host port) = 0 := by
      rw [← List.count_append, List.take_append_drop]
      exact List.count_eq_zero.mpr hs
    have bex : (("-ex" : String) == targetRemoteCmd host port) = false :=
      beq_eq_false_iff_ne.mpr (Ne.symm (targetRemoteCmd_ne host port "-ex" (by decide)))
    have bimg : (img == targetRemoteCmd host port) = false := beq_eq_false_iff_ne.mpr himg
    simp [List.count_append, List.count_cons, bex, bimg]
    omega
  set L1 : List String := dbg :: "-l" :: "10000" ::
      ((if serve then [] else ["-ex", "set sysroot /"]) ++
        "-x" :: cf :: options.take j) with hL1
  set L2 : List String := options.drop j ++ [img] with hL2
  have hre : launch_debugger_args dbg cf options serve host port img
      = (L1 ++ ["-ex", targetRemoteCmd host port]) ++ L2 := by
    rw [hstruct, hL1, hL2]
    simp [List.append_assoc]
  have hjle : j ≤ options.length := by omega
  have hL1len : L1.length = (if serve then 5 else 7) + j := by
    rw [hL1]
    cases serve <;>
      simp [List.length_append, List.length_take, Nat.min_eq_left hjle] <;> omega
  have hscanL1 : pairScan resumePair L1 = false := by
    rw [hL1]
    have fdbg : resumePair dbg "-l" = false := resumePair_snd _ _ (by decide)
    have fcf : resumePair "-x" cf = false := resumePair_fst _ _ (by decide)
    cases serve
    · have hshape : dbg :: "-l" :: "10000" ::
          ((if (false : Bool) then [] else ["-ex", "set sysroot /"]) ++
            "-x" :: cf :: options.take j)
          = [dbg, "-l", "10000", "-ex", "set sysroot /", "-x", cf] ++ options.take j := by
        simp
      rw [hshape]
      apply pairScan_append_false
      · have f2 : resumePair "-l" "10000" = false := by decide
        have f3 : resumePair "10000" "-ex" = false := by decide
        have f4 : resumePair "-ex" "set sysroot /" = false := by decide
        have f5 : resumePair "set sysroot /" "-x" = false := by decide
        simp [pairScan, fdbg, fcf, f2, f3, f4, f5]
      · exact pairScan_take_of_idx resumePair options j hj
      · exact pairBoundary_of_last _ _ _ cf rfl (fun y => resumePair_fst _ _ hcfex)
    · have hshape : dbg :: "-l" :: "10000" ::
          ((if (true : Bool) then [] else ["-ex", "set sysroot /"]) ++
            "-x" :: cf :: options.take j)
          = [dbg, "-l", "10000", "-x", cf] ++ options.take j := by
        simp
      rw [hshape]
      apply pairScan_append_false
      · have f2 : resumePair "-l" "10000" = false := by decide
        have f3 : resumePair "10000" "-x" = false := by decide
        simp [pairScan, fdbg, fcf, f2, f3]
      · exact pairScan_take_of_idx resumePair options j hj
      · exact pairBoundary_of_last _ _ _ cf rfl (fun y => resumePair_fst _ _ hcfex)
  have hscanIns : pairScan resumePair ["-ex", targetRemoteCmd host port] = false := by
    have f : resumePair "-ex" (targetRemoteCmd host port) = false :=
      resumePair_snd _ _ (needs_target_targetRemoteCmd host port)
    simp [pairScan, f]
  have hbIns : pairBoundary resumePair L1 ["-ex", targetRemoteCmd host port] = false :=
    pairBoundary_of_head _ _ _ "-ex" rfl (fun x => resumePair_snd _ _ (by decide))
  have hscanL1i : pairScan resumePair (L1 ++ ["-ex", targetRemoteCmd host port]) = false :=
    pairScan_append_false _ _ _ hscanL1 hscanIns hbIns
  have hlastL1i : (L1 ++ ["-ex", targetRemoteCmd host port]).getLast?
      = some (targetRemoteCmd host port) := by
    have hsh : L1 ++ ["-ex", targetRemoteCmd host port]
        = (L1 ++ ["-ex"]) ++ [targetRemoteCmd host port] := by simp
    rw [hsh]
    exact List.getLast?_concat _
  have hbL2 : pairBoundary resumePair (L1 ++ ["-ex", targetRemoteCmd host port]) L2 = false :=
    pairBoundary_of_last _ _ _ (targetRemoteCmd host port) hlastL1i
      (fun y => resumePair_fst _ _ (targetRemoteCmd_ne host port "-ex" (by decide)))
  rcases pairAt_drop_eq resumePair options j (pairIdx_some_pairAt resumePair options j hj)
    with ⟨x, y, hdropeq, hpxy⟩
  have hidxL2 : pairIdx resumePair L2 = some 0 := by
    rw [hL2, hdropeq, List.cons_append, List.cons_append]
    show (if resumePair x y = true then some 0
        else (pairIdx resumePair (y :: (options.drop (j + 2) ++ [img]))).map (· + 1))
      = some 0
    rw [if_pos hpxy]
  have hfinal : pairIdx resumePair ((L1 ++ ["-ex", targetRemoteCmd host port]) ++ L2)
      = some ((L1 ++ ["-ex", targetRemoteCmd host port]).length) := by
    rw [pairIdx_append _ _ _ hscanL1i hbL2, hidxL2]
    simp
  have hlen2 : (L1 ++ ["-ex", targetRemoteCmd host port]).length
      = (if serve then 5 else 7) + j + 2 := by
    rw [List.length_append, hL1len]
    rfl
  refine ⟨hcount, ?_, ?_⟩
  · rw [hre]
    have hsh : (L1 ++ ["-ex", targetRemoteCmd host port]) ++ L2
        = L1 ++ "-ex" :: targetRemoteCmd host port :: L2 := by simp
    rw [hsh, show (if serve then 5 else 7) + j + 1 = L1.length + 1 from by rw [hL1len]]
    rw [List.get?_append_right (by omega), Nat.add_sub_cancel_left]
    rfl
  · rw [hre, hfinal, hlen2]

/-- C7 (witness): the spec's scenario, with the insertion mid-sequence; the
directive lands at index 10 and the first resume-type pair at index 11. -/
theorem directive_precedes_first_resume_directive_witness :
    (launch_debugger_args "gdb" "/proc/1/fd/3" ["-ex", "echo hi", "-ex", "continue"] false
        "127.0.0.1" 9999 "/home/user/prog").count (targetRemoteCmd "127.0.0.1" 9999) = 1 ∧
    (launch_debugger_args "gdb" "/proc/1/fd/3" ["-ex", "echo hi", "-ex", "continue"] false
        "127.0.0.1" 9999 "/home/user/prog").get? 10 = some (targetRemoteCmd "127.0.0.1" 9999) ∧
    pairIdx resumePair
      (launch_debugger_args "gdb" "/proc/1/fd/3" ["-ex", "echo hi", "-ex", "continue"] false
        "127.0.0.1" 9999 "/home/user/prog") = some 11 :=
  directive_precedes_first_resume_directive "gdb" "/proc/1/fd/3"
    ["-ex", "echo hi", "-ex", "continue"] false "127.0.0.1" 9999 "/home/user/prog" 2
    (by decide) (by decide) (by decide) (by decide) (by decide) (by decide)

/-! ### Claim C6 -/

theorem to_shell_go_data (args : List String) (acc : String) :
    (args.foldl (fun acc a => acc ++ "\x27" ++ a ++ "\x27 ") acc).data
      = acc.data ++ quoteBlocks args := by
  induction args generalizing acc with
  | nil => simp [quoteBlocks]
  | cons a rest ih =>
    rw [List.foldl_cons, ih]
    have hq : ("\x27" : String).data = [squote] := rfl
    have hqs : ("\x27 " : String).data = [squote, ' '] := rfl
    rw [show quoteBlocks (a :: rest)
        = squote :: (a.data ++ squote :: ' ' :: quoteBlocks rest) from rfl]
    simp [String.data_append, hq, hqs]
    rfl

theorem to_shell_string_data (args : List String) :
    (to_shell_string args).data = quoteBlocks args := by
  unfold to_shell_string
  rw [to_shell_go_data]
  rfl

theorem shell_tokenize_go_quoted (d : List Char) (hd : squote ∉ d) :
    ∀ (cur : List Char) (cs : List Char),
      shell_tokenize_go (TokState.quoted cur) (d ++ cs)
        = shell_tokenize_go (TokState.quoted (cur ++ d)) cs := by
  induction d with
  | nil =>
    intro cur cs
    simp
  | cons c d₂ ih =>
    intro cur cs
    rw [List.mem_cons] at hd
    push_neg at hd
    have hcq : ¬(c = squote) := fun h => hd.1 h.symm
    rw [List.cons_append]
    rw [show shell_tokenize_go (TokState.quoted cur) (c :: (d₂ ++ cs))
        = (if c = squote then shell_tokenize_go (TokState.word cur) (d₂ ++ cs)
           else shell_tokenize_go (TokState.quoted (cur ++ [c])) (d₂ ++ cs)) from rfl]
    rw [if_neg hcq, ih hd.2 (cur ++ [c]) cs]
    simp [List.append_assoc]

theorem shell_tokenize_go_blocks (args : List String)
    (h : ∀ a ∈ args, squote ∉ a.data) :
    shell_tokenize_go TokState.start (quoteBlocks args) = some args := by
  induction args with
  | nil => rfl
  | cons a rest ih =>
    rw [show quoteBlocks (a :: rest)
        = squote :: (a.data ++ squote :: ' ' :: quoteBlocks rest) from rfl]
    have step1 : shell_tokenize_go TokState.start
        (squote :: (a.data ++ squote :: ' ' :: quoteBlocks rest))
        = shell_tokenize_go (TokState.quoted []) (a.data ++ squote :: ' ' :: quoteBlocks rest) := by
      rfl
    have step2 := shell_tokenize_go_quoted a.data (h a (List.mem_cons_self a rest)) []
      (squote :: ' ' :: quoteBlocks rest)
    have step3 : shell_tokenize_go (TokState.quoted a.data) (squote :: ' ' :: quoteBlocks rest)
        = shell_tokenize_go (TokState.word a.data) (' ' :: quoteBlocks rest) := by
      rfl
    have step4 : shell_tokenize_go (TokState.word a.data) (' ' :: quoteBlocks rest)
        = (shell_tokenize_go TokState.start (quoteBlocks rest)).map
            (fun ts => String.mk a.data :: ts) := by
      rfl
    rw [step1, step2, List.nil_append, step3, step4,
      ih (fun b hb => h b (List.mem_cons_of_mem a hb))]
    simp [mk_data_eq]

/-- C6: shell-quoting an argument sequence with `to_shell_string` and
re-tokenizing the result with a POSIX-style tokenizer reproduces the original
sequence, for arguments without embedded single quotes. -/
theorem shell_quote_round_trip (args : List String)
    (h : ∀ a ∈ args, squote ∉ a.data) :
    shell_tokenize (to_shell_string args) = some args := by
  unfold shell_tokenize
  rw [to_shell_string_data]
  exact shell_tokenize_go_blocks args h

/-- C6 (witness): a realistic launch command survives the round trip — note
the argument with embedded spaces and the empty-string-free quoting. -/
theorem shell_quote_round_trip_witness :
    shell_tokenize (to_shell_string ["gdb", "-l", "10000", "-ex", "set sysroot /"]) =
      some ["gdb", "-l", "10000", "-ex", "set sysroot /"] :=
  shell_quote_round_trip ["gdb", "-l", "10000", "-ex", "set sysroot /"] (by decide)

end RRLaunch
